import Mathlib

/-!
Verification development for the rank-based segment cost (`CostRank` in
`ruptures/costs/costrank.py`).

The Python class is shallowly embedded over exact rationals:

* a 2-D numeric signal of shape `(n, d)` is `Matrix (Fin n) (Fin d) ℚ`
  (a 1-D signal is reshaped to `d = 1` by `fit`, mirrored by `fit1d`);
* `np.argsort(signal, axis=0)` is modelled per column as the sorted list of
  row indices, sorting by value with ties broken by original index (the
  concrete signals used below have no ties, so the tie policy is inert);
* `.astype(int)` is C-style truncation toward zero (`truncInt`);
* `np.cov(m)` with the default `rowvar=True` on an `(n, d)` input treats the
  `n` rows as variables with `d` observations each; with `ddof = 1` the
  divisor is `d - 1`, so for `d < 2` every entry is a float NaN
  (`0/0` after the "Degrees of freedom <= 0" warning).  `npCov` returns
  `none` for that NaN-filled matrix and `some` of the exact matrix otherwise;
* `np.linalg.inv` raises `LinAlgError` on an exactly singular matrix and
  silently returns a NaN-filled matrix on NaN input (NaN never triggers the
  zero-pivot check); `a @ b` raises `ValueError` when the inner dimensions
  disagree.  `error`'s outcome is an `ErrResult`: the Python method either
  raises (`notEnoughPoints`, `typeErrorUnfitted`, `linAlgSingular`,
  `valueErrorShape`), propagates NaN to its result (`nanValue`), or returns
  the scalar (`ok`).
* Python slicing `ranks[start:end]` with natural indices keeps the rows `i`
  with `start ≤ i < end` (clamped to `n`); negative Python indices are
  outside the model, as every claim quantifies over natural positions.

State is passed explicitly: `CostRank.error` returns the result together
with the (unchanged, as in the source, which assigns no attribute in
`error`) instance.
-/

namespace CostRankSpec

/-- Comparison key used by the per-column argsort: order by value, ties by
original row index. -/
def leKey {n : ℕ} (col : Fin n → ℚ) (i k : Fin n) : Bool :=
  decide (col i < col k ∨ (col i = col k ∧ i.val ≤ k.val))

/-- Insert an element into a sorted list (helper for the sort). -/
def insertSorted {α : Type} (le : α → α → Bool) (a : α) : List α → List α
  | [] => [a]
  | b :: l => if le a b then a :: b :: l else b :: insertSorted le a l

/-- Insertion sort.  `leKey` is a linear order without ties (distinct
indices break value ties), so this produces the unique sorted permutation,
the one `np.argsort` computes. -/
def insSort {α : Type} (le : α → α → Bool) : List α → List α
  | [] => []
  | a :: l => insertSorted le a (insSort le l)

theorem length_insertSorted {α : Type} (le : α → α → Bool) (a : α) :
    ∀ l : List α, (insertSorted le a l).length = l.length + 1 := by
  intro l
  induction l with
  | nil => rfl
  | cons b t ih =>
    simp only [insertSorted]
    by_cases h : le a b
    · simp [h]
    · simp [h, ih]

theorem length_insSort {α : Type} (le : α → α → Bool) :
    ∀ l : List α, (insSort le l).length = l.length := by
  intro l
  induction l with
  | nil => rfl
  | cons a t ih => simp [insSort, length_insertSorted, ih]

/-- One column of `np.argsort(signal, axis=0)`: the list of row indices
sorted by the column's values. -/
def npArgsort {n : ℕ} (col : Fin n → ℚ) : List (Fin n) :=
  insSort (leKey col) (List.finRange n)

theorem length_npArgsort {n : ℕ} (col : Fin n → ℚ) :
    (npArgsort col).length = n := by
  simp [npArgsort, length_insSort]

/-- Entry `i` of the argsort of a column (the original index of the
`i`-th smallest value). -/
def argsortAt {n : ℕ} (col : Fin n → ℚ) (i : Fin n) : Fin n :=
  (npArgsort col).get ⟨i.val, by rw [length_npArgsort]; exact i.isLt⟩

/-- Line `ranks = np.argsort(signal, axis=0) + 1` of `fit`. -/
def ranksRaw {n d : ℕ} (sig : Matrix (Fin n) (Fin d) ℚ) :
    Matrix (Fin n) (Fin d) ℕ :=
  Matrix.of fun i j => (argsortAt (fun r => sig r j) i).val + 1

/-- Line `norm_ranks = ranks / len(signal)` of `fit`. -/
def normRanks {n d : ℕ} (sig : Matrix (Fin n) (Fin d) ℚ) :
    Matrix (Fin n) (Fin d) ℚ :=
  Matrix.of fun i j => (ranksRaw sig i j : ℚ) / (n : ℚ)

/-- The centered ranks `norm_ranks - (1/2)` before the `.astype(int)`
coercion. -/
def centeredPre {n d : ℕ} (sig : Matrix (Fin n) (Fin d) ℚ) :
    Matrix (Fin n) (Fin d) ℚ :=
  Matrix.of fun i j => normRanks sig i j - 1 / 2

/-- C-style float-to-int conversion used by `.astype(int)`: truncation
toward zero. -/
def truncInt (q : ℚ) : ℤ := if 0 ≤ q then ⌊q⌋ else ⌈q⌉

/-- Line `centered_ranks = (norm_ranks - (1/2)).astype(int)` of `fit`. -/
def centeredRanks {n d : ℕ} (sig : Matrix (Fin n) (Fin d) ℚ) :
    Matrix (Fin n) (Fin d) ℤ :=
  Matrix.of fun i j => truncInt (centeredPre sig i j)

/-- Mean of one row (one `np.cov` "variable": `rowvar=True` treats each of
the `n` rows as a variable with `d` observations). -/
def rowMean {n d : ℕ} (X : Matrix (Fin n) (Fin d) ℚ) (i : Fin n) : ℚ :=
  (∑ j, X i j) / (d : ℚ)

/-- `np.cov(X)` on an `(n, d)` input with the default `rowvar=True` and
`ddof = 1`: an `n × n` matrix over the row variables.  For `d < 2` the
divisor `d - 1` is `≤ 0` and every entry of the float result is NaN;
that NaN-filled matrix is modelled as `none`. -/
def npCov {n d : ℕ} (X : Matrix (Fin n) (Fin d) ℚ) :
    Option (Matrix (Fin n) (Fin n) ℚ) :=
  if 2 ≤ d then
    some (Matrix.of fun i k =>
      (∑ j, (X i j - rowMean X i) * (X k j - rowMean X k)) / ((d : ℚ) - 1))
  else none

/-- The state stored by a successful `fit`: `self.ranks` and `self.cov`. -/
structure FitData (n d : ℕ) where
  ranks : Matrix (Fin n) (Fin d) ℤ
  cov : Option (Matrix (Fin n) (Fin n) ℚ)

/-- The `CostRank` instance state: `self.cov`/`self.ranks` are `None`
before `fit` (the `none` case), and `self.min_size`. -/
structure CostRank where
  fitdata : Option ((n : ℕ) × (d : ℕ) × FitData n d)
  min_size : ℕ

/-- The constructor `__init__`: `cov = None`, `ranks = None`,
`min_size = 2`. -/
def CostRank.init : CostRank := { fitdata := none, min_size := 2 }

/-- The data computed by `fit` on a 2-D signal: the coerced centered ranks
and their `np.cov`. -/
def fitData {n d : ℕ} (sig : Matrix (Fin n) (Fin d) ℚ) : FitData n d :=
  { ranks := centeredRanks sig
    cov := npCov (Matrix.of fun i j => ((centeredRanks sig i j : ℤ) : ℚ)) }

/-- The method `fit` on a 2-D signal: stores ranks and covariance, returns
the instance; `min_size` is untouched. -/
def CostRank.fit (c : CostRank) {n d : ℕ}
    (sig : Matrix (Fin n) (Fin d) ℚ) : CostRank :=
  { c with fitdata := some ⟨n, d, fitData sig⟩ }

/-- The method `fit` on a 1-D signal: `signal.reshape(-1, 1)` then the 2-D
path. -/
def CostRank.fit1d (c : CostRank) {n : ℕ} (x : Fin n → ℚ) : CostRank :=
  c.fit (Matrix.of fun i (_ : Fin 1) => x i)

/-- Outcome of a call to `error`: one of the exceptions the Python code can
raise, a NaN float result, or a returned scalar. -/
inductive ErrResult where
  | notEnoughPoints
  | typeErrorUnfitted
  | linAlgSingular
  | valueErrorShape
  | nanValue
  | ok (v : ℚ)
deriving DecidableEq

/-- Row indices selected by the slice `ranks[start:end]`. -/
def segIdx (n start e : ℕ) : Finset (Fin n) :=
  Finset.univ.filter fun i => start ≤ i.val ∧ i.val < e

/-- `np.mean(self.ranks[start:end], axis=0)` at feature `j` (NaN when the
slice is empty; callers check the cardinality first). -/
def segMean {n d : ℕ} (ranks : Matrix (Fin n) (Fin d) ℤ) (start e : ℕ)
    (j : Fin d) : ℚ :=
  (∑ i ∈ segIdx n start e, (ranks i j : ℚ)) / ((segIdx n start e).card : ℚ)

/-- `np.linalg.inv` on a nonsingular exact matrix. -/
def qInv {n : ℕ} (C : Matrix (Fin n) (Fin n) ℚ) : Matrix (Fin n) (Fin n) ℚ :=
  (C.det)⁻¹ • C.adjugate

/-- The quadratic form `v ᵀ M v`. -/
def quadForm {n : ℕ} (M : Matrix (Fin n) (Fin n) ℚ) (v : Fin n → ℚ) : ℚ :=
  ∑ i, ∑ k, v i * M i k * v k

/-- Body of `error` after the `min_size` guard, on fitted state.  The
Python expression is
`-(end - start) * mean.T @ inv(self.cov) @ mean / len(self.ranks)`:
`inv` is evaluated first (raising `LinAlgError` on an exactly singular
matrix, returning NaN silently on the NaN covariance), then the matmuls
check shapes (`mean.T` is `1 × d`, the inverse is `n × n`, so `d ≠ n`
raises `ValueError`), then the scalar is produced (NaN when the covariance
was NaN or the slice was empty). -/
def errorCore {n d : ℕ} (fd : FitData n d) (start e : ℕ) : ErrResult :=
  match fd.cov with
  | none => if d = n then .nanValue else .valueErrorShape
  | some C =>
    if C.det = 0 then .linAlgSingular
    else if h : d = n then
      if (segIdx n start e).card = 0 then .nanValue
      else
        .ok (-(((e : ℚ) - (start : ℚ)) *
          quadForm (qInv C)
            (fun i => segMean fd.ranks start e (Fin.cast h.symm i))) / (n : ℚ))
    else .valueErrorShape

/-- The method `error`, result part: the `min_size` guard runs first
(raising `NotEnoughPoints`), then — only then — the fitted attributes are
read (`None` subscripting raises `TypeError` on an unfitted instance), then
`errorCore`. -/
def CostRank.errorRes (c : CostRank) (start e : ℕ) : ErrResult :=
  if (e : ℤ) - (start : ℤ) < (c.min_size : ℤ) then .notEnoughPoints
  else
    match c.fitdata with
    | none => .typeErrorUnfitted
    | some ⟨_, _, fd⟩ => errorCore fd start e

/-- The method `error` with explicit state passing: the source assigns no
attribute in `error`, so the state component is returned unchanged. -/
def CostRank.error (c : CostRank) (start e : ℕ) : ErrResult × CostRank :=
  (c.errorRes start e, c)

/-- The concrete 1-D signal `[1, 5, 2, 6, 3, 4]` of the spec scenario. -/
def sig6 : Fin 6 → ℚ := ![1, 5, 2, 6, 3, 4]

/-- The `(6, 1)` matrix that `fit` works on after reshaping `sig6`. -/
def sig6mat : Matrix (Fin 6) (Fin 1) ℚ := Matrix.of fun i _ => sig6 i

/-- The instance fitted on `sig6`. -/
def c6 : CostRank := CostRank.init.fit1d sig6

/-- A constant 2-feature signal (every observation `(3, 3)`), whose derived
covariance is exactly singular. -/
def sigConst : Matrix (Fin 2) (Fin 2) ℚ := Matrix.of fun _ _ => 3

/-! Helper lemmas shared by the claim theorems. -/

theorem normRanks_pos_le_one {n d : ℕ} (sig : Matrix (Fin n) (Fin d) ℚ)
    (i : Fin n) (j : Fin d) :
    0 < normRanks sig i j ∧ normRanks sig i j ≤ 1 := by
  have hn : 0 < n := i.pos
  have hnq : 0 < (n : ℚ) := by exact_mod_cast hn
  have hk : (argsortAt (fun r => sig r j) i).val < n :=
    (argsortAt (fun r => sig r j) i).isLt
  unfold normRanks ranksRaw
  rw [Matrix.of_apply, Matrix.of_apply]
  constructor
  · exact div_pos (by exact_mod_cast Nat.succ_pos _) hnq
  · rw [div_le_one hnq]
    exact_mod_cast Nat.succ_le_of_lt hk

theorem centeredPre_bounds {n d : ℕ} (sig : Matrix (Fin n) (Fin d) ℚ)
    (i : Fin n) (j : Fin d) :
    -(1 / 2 : ℚ) < centeredPre sig i j ∧ centeredPre sig i j ≤ 1 / 2 := by
  obtain ⟨h1, h2⟩ := normRanks_pos_le_one sig i j
  unfold centeredPre
  rw [Matrix.of_apply]
  constructor <;> linarith

theorem truncInt_eq_zero {q : ℚ} (h1 : -(1 / 2 : ℚ) < q) (h2 : q ≤ 1 / 2) :
    truncInt q = 0 := by
  unfold truncInt
  by_cases h : 0 ≤ q
  · rw [if_pos h, Int.floor_eq_zero_iff]
    exact ⟨h, by linarith⟩
  · rw [if_neg h, Int.ceil_eq_zero_iff]
    exact ⟨by linarith, by linarith⟩

theorem centeredRanks_zero {n d : ℕ} (sig : Matrix (Fin n) (Fin d) ℚ) :
    centeredRanks sig = 0 := by
  ext i j
  rw [Matrix.zero_apply]
  show truncInt (centeredPre sig i j) = 0
  exact truncInt_eq_zero (centeredPre_bounds sig i j).1 (centeredPre_bounds sig i j).2

theorem sigConst_cov_eq : (fitData sigConst).cov = some 0 := by
  have h0 : (Matrix.of fun i j => ((centeredRanks sigConst i j : ℤ) : ℚ)) =
      (0 : Matrix (Fin 2) (Fin 2) ℚ) := by
    ext i j
    rw [Matrix.of_apply, centeredRanks_zero]
    simp
  show npCov (Matrix.of fun i j => ((centeredRanks sigConst i j : ℤ) : ℚ)) = some 0
  rw [h0]
  unfold npCov
  rw [if_pos (by norm_num)]
  congr 1
  ext i j
  rw [Matrix.of_apply]
  simp [rowMean]

/-! Claim theorems. -/

/-- C1: the claim says that on every fitted instance `error(start, end)`
with `end - start ≥ 2` returns the scalar
`-(end - start) · (meanᵀ · covInverse · mean) / n`.  On the fitted spec
scenario instance (1-D signal of length 6) the call instead fails: the
stored covariance is the `6 × 6` NaN matrix produced by `np.cov` on a
`(6, 1)` input, its "inverse" cannot be multiplied with the length-1 mean
vector, and numpy raises `ValueError`; no scalar is returned. -/
theorem error_formula_fails_on_fitted : c6.errorRes 0 2 = .valueErrorShape := by
  decide

/-- C3: the claim says the stored covariance is a `d × d` matrix over the
feature columns, matching the length-`d` mean vector of `error`.  The code
stores the `np.cov` default (`rowvar=True`) result, an `n × n` matrix over
the observation rows: on the fitted 1-D scenario signal (`n = 6`, `d = 1`)
the fitted state holds a `6 × 6` covariance object, and the quadratic form
in `error` fails with a shape `ValueError` against the length-1 mean. -/
theorem cov_axis_mismatch_query_fails :
    c6.fitdata = some ⟨6, 1, fitData sig6mat⟩ ∧
    c6.errorRes 2 4 = .valueErrorShape := by
  exact ⟨rfl, by decide⟩

/-- C2: on any instance whose declared minimum size is the constant 2
(every constructed instance, fitted or not), a call `error(start, end)`
with `end - start < 2` fails with `NotEnoughPoints` and returns the
internal state (cov, ranks, min_size) unchanged. -/
theorem error_short_segment_notEnoughPoints (c : CostRank) (start e : ℕ)
    (hms : c.min_size = 2) (hlt : (e : ℤ) - (start : ℤ) < 2) :
    c.error start e = (.notEnoughPoints, c) := by
  have hcond : (e : ℤ) - (start : ℤ) < (c.min_size : ℤ) := by
    rw [hms]; exact_mod_cast hlt
  simp [CostRank.error, CostRank.errorRes, hcond]

theorem error_short_segment_notEnoughPoints_witness :
    c6.error 0 1 = (.notEnoughPoints, c6) :=
  error_short_segment_notEnoughPoints c6 0 1 rfl (by decide)

/-- C4 (counterexample): the claim places the pre-coercion centered values
in the half-open interval `[-0.5, 0.5)`.  On the scenario signal the
observation holding the largest value gets rank 6, normalized to
`6/6 = 1` and centered to exactly `0.5`, which is outside `[-0.5, 0.5)`. -/
theorem centered_value_reaches_half_cex :
    centeredPre sig6mat 3 0 = 1 / 2 ∧ ¬ (centeredPre sig6mat 3 0 < 1 / 2) := by
  have ha : ranksRaw sig6mat 3 0 = 6 := by decide
  have h : centeredPre sig6mat 3 0 = 1 / 2 := by
    unfold centeredPre normRanks
    rw [Matrix.of_apply, Matrix.of_apply, ha]
    norm_num
  exact ⟨h, by rw [h]; exact lt_irrefl _⟩

/-- C4 (amended): for every signal and each feature column independently,
the rank transform assigns the 1-based sort positions of the column
(via argsort), normalizes them into the half-open interval `(0, 1]` by
dividing by `n`, and centers by subtracting `0.5`, so that before the
integer coercion the values lie in `(-0.5, 0.5]` — both intervals are
closed at the top and open at the bottom, not the reverse. -/
theorem rank_transform_range {n d : ℕ} (sig : Matrix (Fin n) (Fin d) ℚ)
    (i : Fin n) (j : Fin d) :
    (0 < normRanks sig i j ∧ normRanks sig i j ≤ 1) ∧
    (-(1 / 2 : ℚ) < centeredPre sig i j ∧ centeredPre sig i j ≤ 1 / 2) :=
  ⟨normRanks_pos_le_one sig i j, centeredPre_bounds sig i j⟩

/-- C5 (counterexample): the claim says that for every input signal some
entry — the boundary one — survives the integer coercion as a nonzero
value.  On the scenario signal no entry of the coerced rank matrix is
nonzero: the boundary value `0.5` is truncated toward zero as well. -/
theorem no_nonzero_coerced_entry_cex :
    ¬ ∃ i : Fin 6, ∃ j : Fin 1, centeredRanks sig6mat i j ≠ 0 := by
  rintro ⟨i, j, hne⟩
  exact hne (by rw [centeredRanks_zero]; exact Matrix.zero_apply i j)

/-- C5 (amended): the coercion of the centered ranks to integers collapses
every centered value to 0, the boundary case included: all values lie in
`(-0.5, 0.5]` and C-style truncation toward zero sends the whole interval,
`0.5` included, to 0. -/
theorem coercion_collapses_all_to_zero {n d : ℕ}
    (sig : Matrix (Fin n) (Fin d) ℚ) :
    centeredRanks sig = 0 :=
  centeredRanks_zero sig

/-- C6: fitting never fails because of a non-invertible covariance: for
every signal, `fit` succeeds and stores rank and covariance data, and when
the stored covariance is a singular matrix the failure surfaces only at
query time, inside `error`, as the fatal `LinAlgError` of the lazy
inversion — with no fallback approximation. -/
theorem fit_defers_singular_to_error {n d : ℕ}
    (sig : Matrix (Fin n) (Fin d) ℚ) :
    (CostRank.init.fit sig).fitdata = some ⟨n, d, fitData sig⟩ ∧
    ∀ (start e : ℕ) (C : Matrix (Fin n) (Fin n) ℚ),
      (fitData sig).cov = some C → C.det = 0 → 2 ≤ (e : ℤ) - (start : ℤ) →
      (CostRank.init.fit sig).errorRes start e = .linAlgSingular := by
  refine ⟨rfl, ?_⟩
  intro start e C hC hdet hlen
  have hcond : ¬ ((e : ℤ) - (start : ℤ) <
      ((CostRank.init.fit sig).min_size : ℤ)) := by
    show ¬ ((e : ℤ) - (start : ℤ) < ((2 : ℕ) : ℤ))
    push_cast
    omega
  unfold CostRank.errorRes
  rw [if_neg hcond]
  show errorCore (fitData sig) start e = _
  unfold errorCore
  rw [hC]
  simp [hdet]

theorem fit_defers_singular_to_error_witness :
    (CostRank.init.fit sigConst).fitdata = some ⟨2, 2, fitData sigConst⟩ ∧
    (CostRank.init.fit sigConst).errorRes 0 2 = .linAlgSingular :=
  ⟨(fit_defers_singular_to_error sigConst).1,
    (fit_defers_singular_to_error sigConst).2 0 2 0 sigConst_cov_eq
      (Matrix.det_zero ⟨(0 : Fin 2)⟩) (by decide)⟩

/-- C7: the spec scenario claims that on the fitted 1-D signal
`[1, 5, 2, 6, 3, 4]` the calls `error(0, 2)` and `error(2, 4)` succeed
with finite scalars.  Fit does succeed and `min_size` is 2, and
`error(0, 1)` does raise `NotEnoughPoints`; but `error(0, 2)` raises a
shape `ValueError` (the `6 × 6` NaN covariance from `np.cov` of a
`(6, 1)` input cannot be multiplied with the length-1 mean) instead of
returning a scalar.  (`error(2, 4)` fails identically, see the C3
theorem.) -/
theorem concrete_scenario_sig6 :
    c6.min_size = 2 ∧
    c6.errorRes 0 2 = .valueErrorShape ∧
    c6.errorRes 0 1 = .notEnoughPoints := by
  exact ⟨rfl, by decide, by decide⟩

/-- C8: on any instance, `error` is a pure function of `(start, end)`:
the returned state is the unchanged input state, and a repeated call with
identical arguments on that state returns the identical result-state
pair. -/
theorem error_pure_no_mutation (c : CostRank) (start e : ℕ) :
    (c.error start e).2 = c ∧
    ((c.error start e).2).error start e = c.error start e :=
  ⟨rfl, rfl⟩

/-- C9: for every input signal (any shape, any values), the rank matrix
stored by `fit` is identically zero — the boundary entry with centered
value exactly `0.5` is truncated to 0 like all others — and the stored
covariance is therefore computed from the all-zero matrix. -/
theorem fitted_ranks_identically_zero {n d : ℕ}
    (sig : Matrix (Fin n) (Fin d) ℚ) :
    (fitData sig).ranks = 0 ∧
    (fitData sig).cov = npCov (0 : Matrix (Fin n) (Fin d) ℚ) := by
  refine ⟨centeredRanks_zero sig, ?_⟩
  show npCov (Matrix.of fun i j => ((centeredRanks sig i j : ℤ) : ℚ)) =
    npCov (0 : Matrix (Fin n) (Fin d) ℚ)
  congr 1
  ext i j
  rw [Matrix.of_apply, centeredRanks_zero sig]
  simp

/-- C10: the minimum-size check precedes any access to fitted state: on the
freshly constructed, never fitted instance (whose cov and ranks are still
`None`), any call with `end - start < 2` fails with `NotEnoughPoints`
rather than with the `TypeError` that reading the unfitted attributes
would raise. -/
theorem min_size_check_precedes_state_access :
    CostRank.init.fitdata = none ∧
    ∀ start e : ℕ, (e : ℤ) - (start : ℤ) < 2 →
      CostRank.init.error start e = (.notEnoughPoints, CostRank.init) := by
  refine ⟨rfl, ?_⟩
  intro start e h
  have hcond : (e : ℤ) - (start : ℤ) < ((CostRank.init.min_size : ℕ) : ℤ) := by
    show (e : ℤ) - (start : ℤ) < ((2 : ℕ) : ℤ)
    exact_mod_cast h
  simp [CostRank.error, CostRank.errorRes, hcond]

theorem min_size_check_precedes_state_access_witness :
    CostRank.init.error 0 1 = (.notEnoughPoints, CostRank.init) :=
  (min_size_check_precedes_state_access).2 0 1 (by decide)

end CostRankSpec
